import Mathlib

/-!
Shallow embedding of the TeenPattiPool server (src/server.js): the room data
model, the socket handlers as pure state transformers, and the turn-advance
helpers.  Machine numbers are modelled as `Int`/`Nat`; the result of JS
`parseInt` is modelled by `JSNum` (`nan` for a non-numeric parse).
-/

/-- Result of JS `parseInt`: either `NaN` or an integer. -/
inductive JSNum where
  | nan : JSNum
  | num (n : Int) : JSNum
deriving Repr, DecidableEq

/-- JS `x || d` applied to a `parseInt` result: `NaN` and `0` are falsy. -/
def JSNum.orDefault (v : JSNum) (d : Int) : Int :=
  match v with
  | .nan => d
  | .num n => if n = 0 then d else n

/-- A player object as built by the `createRoom` / `joinRoom` handlers. -/
structure Player where
  id : String
  socketId : Option String
  name : String
  balance : Int
  isCreator : Bool
  packed : Bool
deriving Repr, DecidableEq

/-- JS `!s || !s.trim()`: the string is empty or all whitespace. -/
def jsBlank (s : String) : Bool :=
  s.data.all (fun c => c.isWhitespace)

/-- JS `s.toLowerCase()`, character by character. -/
def jsToLower (s : String) : String :=
  ⟨s.data.map Char.toLower⟩

/-- Stands for the JS `undefined` read from an out-of-range array access. -/
def dummyPlayer : Player :=
  { id := "", socketId := none, name := "", balance := 0, isCreator := false, packed := false }

/-- A room object as built by the `createRoom` handler. -/
structure Room where
  code : String
  creator : String
  startingBalance : Int
  players : List Player
  pool : Int
  currentTurn : Nat
  round : Nat
  gameLog : List String
  totalBids : Nat
deriving Repr, DecidableEq

/-- Source `room.players[i]` (JS indexing; out of range reads `undefined`). -/
def playerAt (room : Room) (i : Nat) : Player :=
  room.players.getD i dummyPlayer

/-- JS `Array.prototype.findIndex` (as an `Option Nat`; JS returns `-1` for no hit). -/
def findIndex (p : Player → Bool) : List Player → Option Nat
  | [] => none
  | q :: rest => if p q then some 0 else (findIndex p rest).map (· + 1)

/-- In-place mutation of the object returned by `Array.prototype.find`:
update the first element satisfying the test. -/
def updateFirst (l : List Player) (test : Player → Bool) (f : Player → Player) : List Player :=
  match l with
  | [] => []
  | q :: rest => if test q then f q :: rest else q :: updateFirst rest test f

/-- Source `addToGameLog` (src/server.js line 32): push the message, keep the last 50. -/
def addToGameLog (room : Room) (message : String) : Room :=
  { room with gameLog :=
      let log := room.gameLog ++ [message]
      if log.length > 50 then log.drop (log.length - 50) else log }

/-- The `while` loop shared by `moveToNextActivePlayer` and `ensureActiveTurn`,
with an explicit structural bound `fuel` on the remaining iterations:
`while (players[cur].packed && attempts < total) { cur = (cur+1)%total; attempts++ }`.
Whenever `fuel = total - attempts` the bound never cuts the loop short, since the
guard `attempts < total` fails exactly when the fuel runs out. -/
def moveLoopF (players : List Player) (total : Nat) : Nat → Nat → Nat → Nat × Nat
  | 0, cur, attempts => (cur, attempts)
  | fuel + 1, cur, attempts =>
    if (players.getD cur dummyPlayer).packed = true ∧ attempts < total then
      moveLoopF players total fuel ((cur + 1) % total) (attempts + 1)
    else (cur, attempts)

/-- The `while` loop, entered at `(cur, attempts)`.  Returns the final
`(cur, attempts)`. -/
def moveLoop (players : List Player) (total cur attempts : Nat) : Nat × Nat :=
  moveLoopF players total (total - attempts) cur attempts

/-- The index computed by `moveToNextActivePlayer` (src/server.js line 708):
advance once, scan while packed, and on a full wrap fall back to the first
non-packed player found by a linear scan. -/
def nextTurnIndex (room : Room) : Nat :=
  if room.players.length = 0 then room.currentTurn
  else
    let total := room.players.length
    let r := moveLoop room.players total ((room.currentTurn + 1) % total) 0
    if total ≤ r.2 then
      match findIndex (fun p => !p.packed) room.players with
      | some i => i
      | none => r.1
    else r.1

/-- Source `moveToNextActivePlayer` writes only `room.currentTurn`. -/
def moveToNextActivePlayer (room : Room) : Room :=
  { room with currentTurn := nextTurnIndex room }

/-- The index computed by `ensureActiveTurn` (src/server.js line 735): if the
player at the current turn exists and is packed, scan while packed (without the
initial advance), with the same full-wrap fallback. -/
def ensureTurnIndex (room : Room) : Nat :=
  if room.players.length = 0 then room.currentTurn
  else if (playerAt room room.currentTurn).packed = true then
    let total := room.players.length
    let r := moveLoop room.players total room.currentTurn 0
    if total ≤ r.2 then
      match findIndex (fun p => !p.packed) room.players with
      | some i => i
      | none => r.1
    else r.1
  else room.currentTurn

/-- Source `ensureActiveTurn` writes only `room.currentTurn`. -/
def ensureActiveTurn (room : Room) : Room :=
  { room with currentTurn := ensureTurnIndex room }

/-- Error classes reported by the handlers (§7 taxonomy, as emitted messages). -/
inductive ErrClass where
  | playerNotFound
  | notYourTurn
  | invalidAmount
  | insufficientBalance
  | alreadyPacked
  | forbidden
  | emptyPool
  | notFound
  | cannotRemoveOwner
  | targetInactive
  | duplicateName
deriving Repr, DecidableEq

/-- A handler outcome: the room after the handler ran, plus the error it
emitted (if any).  Error paths `return` before any mutation, so they carry the
input room unchanged; the theorems below check exactly that. -/
structure OpResult where
  room : Room
  err : Option ErrClass
deriving Repr, DecidableEq

/-- Source `joinRoom` handler, room-level part (src/server.js line 134): duplicate
case-insensitive name check, append the new player, log, `ensureActiveTurn`. -/
def joinRoom (room : Room) (playerId sockId playerName : String) : OpResult :=
  if room.players.any (fun p => jsToLower p.name == jsToLower playerName) then
    ⟨room, some .duplicateName⟩
  else
    let newPlayer : Player :=
      { id := playerId, socketId := some sockId, name := playerName,
        balance := room.startingBalance, isCreator := false, packed := false }
    let room := { room with players := room.players ++ [newPlayer] }
    let room := addToGameLog room (playerName ++ " joined the game")
    ⟨ensureActiveTurn room, none⟩

/-- Source `placeBid` handler, room-level part (src/server.js line 193). -/
def placeBid (room : Room) (playerId : String) (amount : Int) : OpResult :=
  match room.players.find? (fun p => p.id == playerId) with
  | none => ⟨room, some .playerNotFound⟩
  | some player =>
    if (playerAt room room.currentTurn).id ≠ playerId then
      ⟨room, some .notYourTurn⟩
    else if amount ≤ 0 then
      ⟨room, some .invalidAmount⟩
    else if player.balance < amount then
      ⟨room, some .insufficientBalance⟩
    else
      let room := { room with
        players := updateFirst room.players (fun p => p.id == playerId)
          (fun p => { p with balance := p.balance - amount }),
        pool := room.pool + amount,
        totalBids := room.totalBids + 1 }
      let room := addToGameLog room (player.name ++ " bid " ++ toString amount)
      ⟨moveToNextActivePlayer room, none⟩

/-- Source `packCards` handler, room-level part (src/server.js line 255), including
the last-man-standing auto-settlement (lines 296-325) and the trailing
`ensureActiveTurn` (line 336). -/
def packCards (room : Room) (playerId : String) : OpResult :=
  match findIndex (fun p => p.id == playerId) room.players with
  | none => ⟨room, some .playerNotFound⟩
  | some playerIndex =>
    let player := playerAt room playerIndex
    if player.packed then ⟨room, some .alreadyPacked⟩
    else if room.currentTurn ≠ playerIndex then ⟨room, some .notYourTurn⟩
    else
      let room := { room with players := room.players.set playerIndex { player with packed := true } }
      let room := addToGameLog room (player.name ++ " packed (folded)")
      let room := moveToNextActivePlayer room
      let active := room.players.filter (fun p => !p.packed)
      let room :=
        if active.length = 1 then
          let winner := active.headD dummyPlayer
          let winAmount := room.pool
          let room := { room with
            players := updateFirst room.players (fun p => p.id == winner.id)
              (fun p => { p with balance := p.balance + winAmount }) }
          let room := addToGameLog room (winner.name ++ " won " ++ toString winAmount ++ " (All others packed)")
          let room := { room with pool := 0, round := room.round + 1, totalBids := 0 }
          let winnerIndex := findIndex (fun p => p.id == winner.id) room.players
          let room := { room with currentTurn := winnerIndex.getD 0 }
          { room with players := room.players.map (fun p => { p with packed := false }) }
        else room
      ⟨ensureActiveTurn room, none⟩

/-- Source `resetPool` handler, room-level part (src/server.js line 344). -/
def resetPool (room : Room) (playerId : String) : OpResult :=
  match room.players.find? (fun p => p.id == playerId) with
  | none => ⟨room, some .forbidden⟩
  | some player =>
    if !player.isCreator then ⟨room, some .forbidden⟩
    else
      let room := { room with
        pool := 0, round := 1, totalBids := 0, currentTurn := 0,
        players := room.players.map (fun p =>
          { p with balance := room.startingBalance, packed := false }) }
      ⟨addToGameLog room ("Pool reset by " ++ player.name), none⟩

/-- Source `declareWinner` handler, room-level part (src/server.js line 393). -/
def declareWinner (room : Room) (playerId winnerId : String) : OpResult :=
  match room.players.find? (fun p => p.id == playerId) with
  | none => ⟨room, some .forbidden⟩
  | some hostPlayer =>
    if !hostPlayer.isCreator then ⟨room, some .forbidden⟩
    else
      match room.players.find? (fun p => p.id == winnerId) with
      | none => ⟨room, some .notFound⟩
      | some winner =>
        if room.pool ≤ 0 then ⟨room, some .emptyPool⟩
        else
          let winAmount := room.pool
          let room := { room with
            players := updateFirst room.players (fun p => p.id == winner.id)
              (fun p => { p with balance := p.balance + winAmount }) }
          let room := addToGameLog room (winner.name ++ " won " ++ toString winAmount ++ " Declared by " ++ hostPlayer.name)
          let room := { room with pool := 0, round := room.round + 1, totalBids := 0 }
          let winnerIndex := findIndex (fun p => p.id == winner.id) room.players
          let room := { room with currentTurn := winnerIndex.getD 0 }
          ⟨{ room with players := room.players.map (fun p => { p with packed := false }) }, none⟩

/-- Source `removePlayer` handler, room-level part (src/server.js line 462).  Note the
order of the turn fix-up (lines 504-509): the out-of-range reset is tested
before the decrement. -/
def removePlayer (room : Room) (playerId targetId : String) : OpResult :=
  match room.players.find? (fun p => p.id == playerId) with
  | none => ⟨room, some .forbidden⟩
  | some hostPlayer =>
    if !hostPlayer.isCreator then ⟨room, some .forbidden⟩
    else
      match room.players.find? (fun p => p.id == targetId) with
      | none => ⟨room, some .notFound⟩
      | some playerToRemove =>
        if playerToRemove.isCreator then ⟨room, some .cannotRemoveOwner⟩
        else
          match findIndex (fun p => p.id == targetId) room.players with
          | none => ⟨room, none⟩
          | some playerIndex =>
            let room := { room with players := room.players.eraseIdx playerIndex }
            let room := addToGameLog room (playerToRemove.name ++ " was removed by " ++ hostPlayer.name)
            let room :=
              if room.players.length ≤ room.currentTurn then
                { room with currentTurn := 0 }
              else if playerIndex < room.currentTurn then
                { room with currentTurn := room.currentTurn - 1 }
              else room
            ⟨room, none⟩

/-- Source `changeTurn` handler, room-level part (src/server.js line 533). -/
def changeTurn (room : Room) (playerId targetId : String) : OpResult :=
  match room.players.find? (fun p => p.id == playerId) with
  | none => ⟨room, some .forbidden⟩
  | some hostPlayer =>
    if !hostPlayer.isCreator then ⟨room, some .forbidden⟩
    else
      match findIndex (fun p => p.id == targetId) room.players with
      | none => ⟨room, some .notFound⟩
      | some newTurnPlayerIndex =>
        let newTurnPlayer := playerAt room newTurnPlayerIndex
        if newTurnPlayer.packed then ⟨room, some .targetInactive⟩
        else
          let room := { room with currentTurn := newTurnPlayerIndex }
          ⟨addToGameLog room ("Turn changed to " ++ newTurnPlayer.name), none⟩

/-- Source `leaveRoom` handler, room-level part (src/server.js line 588).  `none`
means the room became empty and was deleted from the registry. -/
def leaveRoom (room : Room) (playerId : String) : Option Room :=
  match findIndex (fun p => p.id == playerId) room.players with
  | none => some room
  | some playerIndex =>
    let pl := playerAt room playerIndex
    let wasCreator := pl.isCreator
    let room := { room with players := room.players.eraseIdx playerIndex }
    let room := addToGameLog room (pl.name ++ " left the game")
    let room :=
      if wasCreator ∧ 0 < room.players.length then
        { room with
          players := (match room.players with
            | [] => []
            | q :: rest => { q with isCreator := true } :: rest),
          creator := (playerAt room 0).name }
      else room
    if room.players.length = 0 then none
    else if room.players.length ≤ room.currentTurn then
      some { room with currentTurn := 0 }
    else some room

/-- Body of the disconnect grace timer (src/server.js lines 655-699): if the
participant still exists and its socket is still the dropped one, behave as
`leaveRoom`; otherwise a no-op. -/
def disconnectTimeout (room : Room) (playerId sockId : String) : Option Room :=
  match room.players.find? (fun p => p.id == playerId) with
  | none => some room
  | some currentPlayer =>
    if currentPlayer.socketId = some sockId then
      match findIndex (fun p => p.id == playerId) room.players with
      | none => some room
      | some finalPlayerIndex =>
        let pl := playerAt room finalPlayerIndex
        let wasCreator := pl.isCreator
        let room := { room with players := room.players.eraseIdx finalPlayerIndex }
        let room := addToGameLog room (pl.name ++ " left the game (timeout)")
        let room :=
          if wasCreator ∧ 0 < room.players.length then
            { room with
              players := (match room.players with
                | [] => []
                | q :: rest => { q with isCreator := true } :: rest),
              creator := (playerAt room 0).name }
          else room
        if room.players.length = 0 then none
        else if room.players.length ≤ room.currentTurn then
          some { room with currentTurn := 0 }
        else some room
    else some room

/-- Room-level part of `rejoinRoom` (src/server.js line 95): rebind the
socket of the participant with this id, if present, and log. -/
def rejoinPlayer (room : Room) (playerId sockId playerName : String) : Room :=
  match room.players.find? (fun p => p.id == playerId) with
  | none => room
  | some _ =>
    let room := { room with
      players := updateFirst room.players (fun p => p.id == playerId)
        (fun p => { p with socketId := some sockId }) }
    addToGameLog room (playerName ++ " reconnected")

/-- The room registry (`const rooms = new Map()`), keys unique. -/
def Registry := List (String × Room)

instance : DecidableEq Registry := by
  unfold Registry
  infer_instance

/-- Source `rooms.get(code)`. -/
def regGet (reg : Registry) (code : String) : Option Room :=
  (reg.find? (fun p => p.1 == code)).map Prod.snd

/-- Source `rooms.set(code, room)`: replace the binding if the key exists, else append. -/
def regSet : Registry → String → Room → Registry
  | [], code, room => [(code, room)]
  | (c, r) :: rest, code, room =>
    if c == code then (code, room) :: rest else (c, r) :: regSet rest code room

/-- Source `createRoom` handler (src/server.js line 47).  `generateRoomCode` draws a
random 4-digit string with no registry lookup; the drawn code is passed in as
`roomCode`.  Returns the updated registry and the created room (`none` when
the name check failed). -/
def createRoom (reg : Registry) (roomCode playerId sockId : String)
    (creatorName : String) (startingBalance : JSNum) : Registry × Option Room :=
  if jsBlank creatorName then (reg, none)
  else
    let room : Room :=
      { code := roomCode,
        creator := creatorName,
        startingBalance := startingBalance.orDefault 1000,
        players := [{
          id := playerId, socketId := some sockId, name := creatorName,
          balance := startingBalance.orDefault 1000, isCreator := true, packed := false }],
        pool := 0, currentTurn := 0, round := 1, gameLog := [], totalBids := 0 }
    let room := addToGameLog room (creatorName ++ " created the room")
    (regSet reg roomCode room, some room)

/-- JS falsiness of an optional string field (`undefined` or the empty string). -/
def jsFalsy : Option String → Bool
  | none => true
  | some s => s == ""

/-- Source `rejoinRoom` handler (src/server.js line 95), registry level.  The boolean
is the `success` flag of the emitted `roomRejoined` response. -/
def rejoinRoom (reg : Registry) (roomCode playerId playerName : Option String)
    (sockId : String) : Registry × Bool :=
  if jsFalsy roomCode || jsFalsy playerId || jsFalsy playerName then (reg, false)
  else
    match regGet reg (roomCode.getD "") with
    | none => (reg, false)
    | some room =>
      match room.players.find? (fun p => p.id == playerId.getD "") with
      | none => (reg, false)
      | some _ =>
        let room := { room with
          players := updateFirst room.players (fun p => p.id == playerId.getD "")
            (fun p => { p with socketId := some sockId }) }
        let room := addToGameLog room (playerName.getD "" ++ " reconnected")
        (regSet reg (roomCode.getD "") room, true)

/-- One state-machine operation on a room (§4.2). -/
inductive GameOp where
  | join (pid sid name : String)
  | rejoin (pid sid name : String)
  | bid (pid : String) (amount : Int)
  | pack (pid : String)
  | reset (pid : String)
  | declare (pid wid : String)
  | remove (pid tid : String)
  | changeT (pid tid : String)
  | leave (pid : String)
  | disconnect (pid sid : String)
deriving Repr, DecidableEq

/-- Apply one operation; `none` means the room was deleted. -/
def stepOp (room : Room) (op : GameOp) : Option Room :=
  match op with
  | .join pid sid name => some (joinRoom room pid sid name).room
  | .rejoin pid sid name => some (rejoinPlayer room pid sid name)
  | .bid pid amount => some (placeBid room pid amount).room
  | .pack pid => some (packCards room pid).room
  | .reset pid => some (resetPool room pid).room
  | .declare pid wid => some (declareWinner room pid wid).room
  | .remove pid tid => some (removePlayer room pid tid).room
  | .changeT pid tid => some (changeTurn room pid tid).room
  | .leave pid => leaveRoom room pid
  | .disconnect pid sid => disconnectTimeout room pid sid

/-- Run a sequence of operations. -/
def runOps : Room → List GameOp → Option Room
  | room, [] => some room
  | room, op :: rest =>
    match stepOp room op with
    | none => none
    | some room' => runOps room' rest

/-! ## Concrete states used by the counterexamples and witnesses -/

/-- Stands for the JS `undefined` read from a failed registry lookup. -/
def dummyRoom : Room :=
  { code := "", creator := "", startingBalance := 0, players := [], pool := 0,
    currentTurn := 0, round := 1, gameLog := [], totalBids := 0 }

/-- Three-player room: the owner is at index 1 and the turn is on index 2. -/
def c1Room : Room :=
  { code := "4321", creator := "A", startingBalance := 1000,
    players :=
      [{ id := "b", socketId := some "sb", name := "B", balance := 1000,
         isCreator := false, packed := false },
       { id := "a", socketId := some "sa", name := "A", balance := 1000,
         isCreator := true, packed := false },
       { id := "c", socketId := some "sc", name := "C", balance := 1000,
         isCreator := false, packed := false }],
    pool := 0, currentTurn := 2, round := 1, gameLog := [], totalBids := 0 }

/-- Two-player room in which everyone has packed, turn on index 0. -/
def c2Room : Room :=
  { code := "5678", creator := "A", startingBalance := 1000,
    players :=
      [{ id := "a", socketId := some "sa", name := "A", balance := 1000,
         isCreator := true, packed := true },
       { id := "b", socketId := some "sb", name := "B", balance := 1000,
         isCreator := false, packed := true }],
    pool := 30, currentTurn := 0, round := 1, gameLog := [], totalBids := 3 }

/-- A live room with code `"1234"` and a distinctive pool. -/
def c4Room : Room :=
  { code := "1234", creator := "Old", startingBalance := 1000,
    players :=
      [{ id := "old1", socketId := some "so", name := "Old", balance := 958,
         isCreator := true, packed := false }],
    pool := 42, currentTurn := 0, round := 3, gameLog := [], totalBids := 7 }

/-- A registry in which code `"1234"` is currently in use. -/
def c4Reg : Registry := [("1234", c4Room)]

/-- Two-player room with an empty pool, owner `"a"`. -/
def c7Room : Room :=
  { code := "7777", creator := "A", startingBalance := 1000,
    players :=
      [{ id := "a", socketId := some "sa", name := "A", balance := 1000,
         isCreator := true, packed := false },
       { id := "b", socketId := some "sb", name := "B", balance := 1000,
         isCreator := false, packed := false }],
    pool := 0, currentTurn := 0, round := 1, gameLog := [], totalBids := 0 }

/-- The room produced by `createRoom` for owner `"A"`. -/
def c3Start : Room :=
  ((createRoom [] "1111" "a" "sa" "A" (JSNum.num 1000)).2).getD dummyRoom

/-- B, C, D join; A packs; B and C bid; the owner A removes C while the turn
is on the last index. -/
def c3Trace : List GameOp :=
  [GameOp.join "b" "sb" "B", GameOp.join "c" "sc" "C", GameOp.join "d" "sd" "D",
   GameOp.pack "a", GameOp.bid "b" 10, GameOp.bid "c" 10, GameOp.remove "a" "c"]

/-- Claim C1, counterexample. --  In `c1Room` the requester `"a"` is the owner, the
target `"b"` is a present non-owner at index `0 < currentTurnIndex = 2`, and the
room has at least two participants; the claim demands that removal decrement
`currentTurnIndex` to `1`, but `removePlayer` resets it to `0` because the
out-of-range test (`currentTurn >= players.length` after the splice) is applied
before the decrement. -/
theorem c1_remove_decrement_counterexample :
    2 ≤ c1Room.players.length ∧
    (c1Room.players.find? (fun p => p.id == "a")).any (fun p => p.isCreator) = true ∧
    findIndex (fun p => p.id == "b") c1Room.players = some 0 ∧
    (c1Room.players.find? (fun p => p.id == "b")).any (fun p => !p.isCreator) = true ∧
    0 < c1Room.currentTurn ∧ c1Room.currentTurn < c1Room.players.length ∧
    (removePlayer c1Room "a" "b").err = none ∧
    (removePlayer c1Room "a" "b").room.currentTurn ≠ c1Room.currentTurn - 1 := by
  decide

/-- Claim C2, counterexample. --  In `c2Room` every participant is inactive, yet
`moveToNextActivePlayer` does not leave `currentTurnIndex` unchanged: the failed
circular scan parks it at `(currentTurnIndex + 1) mod N = 1`. -/
theorem c2_all_inactive_counterexample :
    (∀ p ∈ c2Room.players, p.packed = true) ∧
    (moveToNextActivePlayer c2Room).currentTurn ≠ c2Room.currentTurn := by
  decide

/-- Claim C4, counterexample. --  Code `"1234"` is live in `c4Reg`; `createRoom`
with that generated code succeeds and silently replaces the existing room's
state (`rooms.set` has no collision check). -/
theorem c4_collision_clobbers_counterexample :
    regGet c4Reg "1234" = some c4Room ∧
    (createRoom c4Reg "1234" "p2" "s2" "Bob" (JSNum.num 500)).2.isSome = true ∧
    regGet (createRoom c4Reg "1234" "p2" "s2" "Bob" (JSNum.num 500)).1 "1234" ≠ some c4Room := by
  decide

/-- Claim C7, counterexample. --  The requester `"a"` is the owner and the pool is
empty, yet declaring the absent id `"ghost"` reports `NotFound`, not
`EmptyPool`: the handler tests the winner lookup before the pool. -/
theorem c7_emptypool_counterexample :
    (c7Room.players.find? (fun p => p.id == "a")).any (fun p => p.isCreator) = true ∧
    c7Room.pool ≤ 0 ∧
    (declareWinner c7Room "a" "ghost").err = some ErrClass.notFound ∧
    (declareWinner c7Room "a" "ghost").err ≠ some ErrClass.emptyPool := by
  decide

/-- Claim C3. --  Evaluating the handlers on the concrete trace `c3Trace` from the
freshly created room `c3Start`: after the owner removes a participant, the
participant at `currentTurnIndex` is packed although active participants
remain, so the claimed invariant is violated on a reachable state. -/
theorem c3_turn_invariant_violated :
    ((runOps c3Start c3Trace).map (fun r =>
      (playerAt r r.currentTurn).packed && r.players.any (fun p => !p.packed))).getD false = true := by
  decide

/-! ## Registry lemmas -/

theorem regGet_regSet_self (reg : Registry) (code : String) (room : Room) :
    regGet (regSet reg code room) code = some room := by
  induction reg with
  | nil => simp [regGet, regSet, List.find?]
  | cons hd rest ih =>
    obtain ⟨c, r⟩ := hd
    by_cases hc : c = code
    · subst hc
      simp [regGet, regSet, List.find?]
    · have hb : (c == code) = false := by simp [hc]
      simp only [regSet, hb, Bool.false_eq_true, if_false]
      simpa [regGet, List.find?, hb] using ih

theorem regGet_regSet_ne (reg : Registry) (code code' : String) (room : Room)
    (h : code' ≠ code) : regGet (regSet reg code room) code' = regGet reg code' := by
  have hb' : (code == code') = false := by
    simp only [beq_eq_false_iff_ne, ne_eq]
    exact fun hh => h hh.symm
  induction reg with
  | nil => simp [regGet, regSet, List.find?, hb']
  | cons hd rest ih =>
    obtain ⟨c, r⟩ := hd
    by_cases hc : c = code
    · subst hc
      have hb : (c == c) = true := by simp
      simp [regGet, regSet, List.find?, hb']
    · have hb : (c == code) = false := by simp [hc]
      simp only [regSet, hb, Bool.false_eq_true, if_false]
      by_cases hc' : c = code'
      · subst hc'
        simp [regGet, List.find?]
      · have hb2 : (c == code') = false := by simp [hc']
        simpa [regGet, List.find?, hb2] using ih

/-- The room object `createRoom` constructs for a non-blank name. -/
def createdRoom (roomCode playerId sockId creatorName : String) (sb : JSNum) : Room :=
  addToGameLog
    { code := roomCode, creator := creatorName, startingBalance := sb.orDefault 1000,
      players := [{
        id := playerId, socketId := some sockId, name := creatorName,
        balance := sb.orDefault 1000, isCreator := true, packed := false }],
      pool := 0, currentTurn := 0, round := 1, gameLog := [], totalBids := 0 }
    (creatorName ++ " created the room")

theorem createRoom_snd (reg : Registry) (code pid sid name : String) (sb : JSNum)
    (h : jsBlank name = false) :
    (createRoom reg code pid sid name sb).2 = some (createdRoom code pid sid name sb) := by
  simp [createRoom, createdRoom, h]

theorem createRoom_fst (reg : Registry) (code pid sid name : String) (sb : JSNum)
    (h : jsBlank name = false) :
    (createRoom reg code pid sid name sb).1 = regSet reg code (createdRoom code pid sid name sb) := by
  simp [createRoom, createdRoom, h]

/-! ## Claim theorems: C9, C10, C4 (amended), C7 (amended) -/

/-- Claim C9. --  With a non-blank owner name, `createRoom` maps an absent,
non-numeric, or zero-parsing `startingBalance` (i.e. a `parseInt` result of
`NaN` or `0`) to 1000 for both the room's `startingBalance` and the owner's
initial balance, while any non-zero numeric value — negative included — is
accepted unchanged. -/
theorem c9_starting_balance_default (reg : Registry) (code pid sid name : String)
    (h : jsBlank name = false) :
    (∀ sb, (sb = JSNum.nan ∨ sb = JSNum.num 0) →
      ∃ r, (createRoom reg code pid sid name sb).2 = some r ∧
        r.startingBalance = 1000 ∧ (r.players.headD dummyPlayer).balance = 1000) ∧
    (∀ n : Int, n ≠ 0 →
      ∃ r, (createRoom reg code pid sid name (JSNum.num n)).2 = some r ∧
        r.startingBalance = n ∧ (r.players.headD dummyPlayer).balance = n) := by
  constructor
  · rintro sb (rfl | rfl) <;>
      exact ⟨_, createRoom_snd reg code pid sid name _ h,
        by simp [createdRoom, addToGameLog, JSNum.orDefault],
        by simp [createdRoom, addToGameLog, JSNum.orDefault]⟩
  · intro n hn
    exact ⟨_, createRoom_snd reg code pid sid name _ h,
      by simp [createdRoom, addToGameLog, JSNum.orDefault, hn],
      by simp [createdRoom, addToGameLog, JSNum.orDefault, hn]⟩

/-- Claim C9, witness. --  Concrete instance: name `"Ann"`, a `NaN` parse gives 1000
and the negative value `-250` is kept. -/
theorem c9_starting_balance_default_witness :
    (∃ r, (createRoom [] "1000" "p" "s" "Ann" JSNum.nan).2 = some r ∧
      r.startingBalance = 1000 ∧ (r.players.headD dummyPlayer).balance = 1000) ∧
    (∃ r, (createRoom [] "1000" "p" "s" "Ann" (JSNum.num (-250))).2 = some r ∧
      r.startingBalance = -250 ∧ (r.players.headD dummyPlayer).balance = -250) :=
  ⟨(c9_starting_balance_default [] "1000" "p" "s" "Ann" (by decide)).1 JSNum.nan (Or.inl rfl),
   (c9_starting_balance_default [] "1000" "p" "s" "Ann" (by decide)).2 (-250) (by decide)⟩

/-- Claim C10. --  If the `playerName` field of a rejoin request is absent or the
empty string, `rejoinRoom` answers `success: false` and leaves the registry —
hence every room — untouched, regardless of the supplied code and id. -/
theorem c10_rejoin_requires_name (reg : Registry) (rc pid : Option String)
    (pn : Option String) (sid : String) (h : pn = none ∨ pn = some "") :
    (rejoinRoom reg rc pid pn sid).2 = false ∧
    (rejoinRoom reg rc pid pn sid).1 = reg := by
  have hf : jsFalsy pn = true := by rcases h with rfl | rfl <;> rfl
  constructor <;> simp [rejoinRoom, hf]

/-- A registry whose room `"1234"` contains the participant `"old1"`. -/
def c10Reg : Registry := [("1234", c4Room)]

/-- Claim C10, witness. --  Even with a registry in which code `"1234"` and
participant id `"old1"` are both live, an empty name makes the rejoin fail with
no mutation. -/
theorem c10_rejoin_requires_name_witness :
    (rejoinRoom c10Reg (some "1234") (some "old1") (some "") "s9").2 = false ∧
    (rejoinRoom c10Reg (some "1234") (some "old1") (some "") "s9").1 = c10Reg :=
  c10_rejoin_requires_name c10Reg (some "1234") (some "old1") (some "") "s9" (Or.inr rfl)

/-- Claim C4, amended. --  `createRoom` performs no collision check: with a
non-blank owner name it unconditionally binds the generated code in the
registry (`rooms.set`), so a generated code equal to a live room's code
replaces that room's state; rooms under every other code are untouched. -/
theorem c4_amended_set_semantics (reg : Registry) (code pid sid name : String)
    (sb : JSNum) (h : jsBlank name = false) :
    (createRoom reg code pid sid name sb).2.isSome = true ∧
    regGet (createRoom reg code pid sid name sb).1 code
      = (createRoom reg code pid sid name sb).2 ∧
    (∀ c', c' ≠ code →
      regGet (createRoom reg code pid sid name sb).1 c' = regGet reg c') := by
  rw [createRoom_fst reg code pid sid name sb h, createRoom_snd reg code pid sid name sb h]
  refine ⟨rfl, regGet_regSet_self reg code _, ?_⟩
  intro c' hc'
  exact regGet_regSet_ne reg code c' _ hc'

/-- Claim C4 (amended), witness. --  Creating with the colliding code `"1234"` over
`c4Reg` rebinds that code to the new room and touches no other code. -/
theorem c4_amended_set_semantics_witness :
    (createRoom c4Reg "1234" "p2" "s2" "Bob" (JSNum.num 500)).2.isSome = true ∧
    regGet (createRoom c4Reg "1234" "p2" "s2" "Bob" (JSNum.num 500)).1 "1234"
      = (createRoom c4Reg "1234" "p2" "s2" "Bob" (JSNum.num 500)).2 ∧
    regGet (createRoom c4Reg "1234" "p2" "s2" "Bob" (JSNum.num 500)).1 "9999"
      = regGet c4Reg "9999" :=
  ⟨(c4_amended_set_semantics c4Reg "1234" "p2" "s2" "Bob" (JSNum.num 500) (by decide)).1,
   (c4_amended_set_semantics c4Reg "1234" "p2" "s2" "Bob" (JSNum.num 500) (by decide)).2.1,
   (c4_amended_set_semantics c4Reg "1234" "p2" "s2" "Bob" (JSNum.num 500) (by decide)).2.2
     "9999" (by decide)⟩

/-- Claim C7, amended. --  For an owner requester, `declareWinner` checks the winner
lookup first: an absent winner id yields `NotFound` even when the pool is
empty, and an empty (or negative) pool yields `EmptyPool` only when the winner
id is present. -/
theorem c7_amended_precedence (room : Room) (pid wid : String) (host : Player)
    (hh : room.players.find? (fun p => p.id == pid) = some host)
    (hc : host.isCreator = true) :
    (room.players.find? (fun p => p.id == wid) = none →
      (declareWinner room pid wid).err = some ErrClass.notFound) ∧
    (∀ w, room.players.find? (fun p => p.id == wid) = some w → room.pool ≤ 0 →
      (declareWinner room pid wid).err = some ErrClass.emptyPool) := by
  constructor
  · intro hw
    simp [declareWinner, hh, hc, hw]
  · intro w hw hpool
    simp [declareWinner, hh, hc, hw, hpool]

/-- Claim C7 (amended), witness. --  In `c7Room` (owner `"a"`, empty pool):
declaring the absent `"ghost"` gives `NotFound`; declaring the present `"b"`
gives `EmptyPool`. -/
theorem c7_amended_precedence_witness :
    (declareWinner c7Room "a" "ghost").err = some ErrClass.notFound ∧
    (declareWinner c7Room "a" "b").err = some ErrClass.emptyPool := by
  constructor
  · exact (c7_amended_precedence c7Room "a" "ghost"
      (c7Room.players.headD dummyPlayer) (by decide) (by decide)).1 (by decide)
  · exact (c7_amended_precedence c7Room "a" "b"
      (c7Room.players.headD dummyPlayer) (by decide) (by decide)).2
      (c7Room.players.getD 1 dummyPlayer) (by decide) (by decide)

/-! ## C5: validate-then-apply -/

theorem joinRoom_fail_eq (room : Room) (pid sid name : String) :
    (joinRoom room pid sid name).err ≠ none → (joinRoom room pid sid name).room = room := by
  unfold joinRoom
  dsimp only
  split
  · intro _; rfl
  · intro h; exact absurd rfl h

theorem placeBid_fail_eq (room : Room) (pid : String) (amount : Int) :
    (placeBid room pid amount).err ≠ none → (placeBid room pid amount).room = room := by
  unfold placeBid
  dsimp only
  repeat' split
  all_goals intro h
  all_goals first | rfl | exact absurd rfl h

theorem packCards_fail_eq (room : Room) (pid : String) :
    (packCards room pid).err ≠ none → (packCards room pid).room = room := by
  unfold packCards
  dsimp only
  repeat' split
  all_goals intro h
  all_goals first | rfl | exact absurd rfl h

theorem resetPool_fail_eq (room : Room) (pid : String) :
    (resetPool room pid).err ≠ none → (resetPool room pid).room = room := by
  unfold resetPool
  dsimp only
  repeat' split
  all_goals intro h
  all_goals first | rfl | exact absurd rfl h

theorem declareWinner_fail_eq (room : Room) (pid wid : String) :
    (declareWinner room pid wid).err ≠ none → (declareWinner room pid wid).room = room := by
  unfold declareWinner
  dsimp only
  repeat' split
  all_goals intro h
  all_goals first | rfl | exact absurd rfl h

theorem removePlayer_fail_eq (room : Room) (pid tid : String) :
    (removePlayer room pid tid).err ≠ none → (removePlayer room pid tid).room = room := by
  unfold removePlayer
  dsimp only
  repeat' split
  all_goals intro h
  all_goals first | rfl | exact absurd rfl h

theorem changeTurn_fail_eq (room : Room) (pid tid : String) :
    (changeTurn room pid tid).err ≠ none → (changeTurn room pid tid).room = room := by
  unfold changeTurn
  dsimp only
  repeat' split
  all_goals intro h
  all_goals first | rfl | exact absurd rfl h

theorem rejoinRoom_fail_eq (reg : Registry) (rc pid pn : Option String) (sid : String) :
    (rejoinRoom reg rc pid pn sid).2 = false → (rejoinRoom reg rc pid pn sid).1 = reg := by
  unfold rejoinRoom
  dsimp only
  repeat' split
  all_goals intro h
  all_goals first | rfl | exact Bool.noConfusion h

/-- Claim C5. --  Validate-then-apply: whenever one of the state-machine operations
(Join, Rejoin, PlaceBid, Pack, ResetPool, DeclareWinner, RemoveParticipant,
ChangeTurn) reports an error, the room — respectively the whole registry for
Rejoin — is exactly as it was before the call: no partial mutation of
participants, balances, pool, round, totalBids, currentTurnIndex or log. -/
theorem c5_failed_ops_preserve_state (room : Room) (reg : Registry)
    (pid sid name tid wid : String) (amount : Int) (rc rpid rpn : Option String) :
    ((joinRoom room pid sid name).err ≠ none → (joinRoom room pid sid name).room = room) ∧
    ((placeBid room pid amount).err ≠ none → (placeBid room pid amount).room = room) ∧
    ((packCards room pid).err ≠ none → (packCards room pid).room = room) ∧
    ((resetPool room pid).err ≠ none → (resetPool room pid).room = room) ∧
    ((declareWinner room pid wid).err ≠ none → (declareWinner room pid wid).room = room) ∧
    ((removePlayer room pid tid).err ≠ none → (removePlayer room pid tid).room = room) ∧
    ((changeTurn room pid tid).err ≠ none → (changeTurn room pid tid).room = room) ∧
    ((rejoinRoom reg rc rpid rpn sid).2 = false → (rejoinRoom reg rc rpid rpn sid).1 = reg) :=
  ⟨joinRoom_fail_eq room pid sid name, placeBid_fail_eq room pid amount,
   packCards_fail_eq room pid, resetPool_fail_eq room pid,
   declareWinner_fail_eq room pid wid, removePlayer_fail_eq room pid tid,
   changeTurn_fail_eq room pid tid, rejoinRoom_fail_eq reg rc rpid rpn sid⟩

/-- Two-player room used to witness C5: owner `"a"`, non-owner `"b"`. -/
def c5Room : Room :=
  { code := "5555", creator := "A", startingBalance := 1000,
    players :=
      [{ id := "a", socketId := some "sa", name := "A", balance := 1000,
         isCreator := true, packed := false },
       { id := "b", socketId := some "sb", name := "B", balance := 1000,
         isCreator := false, packed := false }],
    pool := 0, currentTurn := 0, round := 1, gameLog := [], totalBids := 0 }

/-- Claim C5, witness. --  Concrete failing calls of every kind leave `c5Room`
(resp. the empty registry) untouched: duplicate-name join, bid and pack by an
unknown id, reset / declare / remove by the non-owner, change-turn to an
unknown id, and a rejoin against an unknown room code. -/
theorem c5_failed_ops_preserve_state_witness :
    (joinRoom c5Room "x" "sx" "a").room = c5Room ∧
    (placeBid c5Room "zz" 5).room = c5Room ∧
    (packCards c5Room "zz").room = c5Room ∧
    (resetPool c5Room "b").room = c5Room ∧
    (declareWinner c5Room "b" "a").room = c5Room ∧
    (removePlayer c5Room "b" "a").room = c5Room ∧
    (changeTurn c5Room "a" "zz").room = c5Room ∧
    (rejoinRoom [] (some "0000") (some "x") (some "X") "s").1 = [] :=
  ⟨(c5_failed_ops_preserve_state c5Room [] "x" "sx" "a" "" "" 5
      (some "0000") (some "x") (some "X")).1 (by decide),
   (c5_failed_ops_preserve_state c5Room [] "zz" "s" "n" "" "" 5
      (some "0000") (some "x") (some "X")).2.1 (by decide),
   (c5_failed_ops_preserve_state c5Room [] "zz" "s" "n" "" "" 5
      (some "0000") (some "x") (some "X")).2.2.1 (by decide),
   (c5_failed_ops_preserve_state c5Room [] "b" "s" "n" "" "" 5
      (some "0000") (some "x") (some "X")).2.2.2.1 (by decide),
   (c5_failed_ops_preserve_state c5Room [] "b" "s" "n" "" "a" 5
      (some "0000") (some "x") (some "X")).2.2.2.2.1 (by decide),
   (c5_failed_ops_preserve_state c5Room [] "b" "s" "n" "a" "" 5
      (some "0000") (some "x") (some "X")).2.2.2.2.2.1 (by decide),
   (c5_failed_ops_preserve_state c5Room [] "a" "s" "n" "zz" "" 5
      (some "0000") (some "x") (some "X")).2.2.2.2.2.2.1 (by decide),
   (c5_failed_ops_preserve_state c5Room [] "a" "s" "n" "zz" "" 5
      (some "0000") (some "x") (some "X")).2.2.2.2.2.2.2 (by decide)⟩

/-! ## List infrastructure for the handler proofs -/

theorem getD_oob : ∀ (l : List Player) (n : Nat), l.length ≤ n → l.getD n dummyPlayer = dummyPlayer := by
  intro l
  induction l with
  | nil => intro n _; rfl
  | cons a rest ih =>
    intro n h
    cases n with
    | zero => exact absurd h (by simp)
    | succ k => exact ih k (Nat.le_of_succ_le_succ h)

theorem getD_mem : ∀ (l : List Player) (k : Nat), k < l.length → l.getD k dummyPlayer ∈ l := by
  intro l
  induction l with
  | nil => intro k h; exact absurd h (by simp)
  | cons a rest ih =>
    intro k h
    cases k with
    | zero => exact List.mem_cons_self a rest
    | succ k' => exact List.mem_cons_of_mem a (ih k' (Nat.lt_of_succ_lt_succ h))

theorem getD_set_self : ∀ (l : List Player) (i : Nat) (q : Player), i < l.length →
    (l.set i q).getD i dummyPlayer = q := by
  intro l
  induction l with
  | nil => intro i q h; exact absurd h (by simp)
  | cons a rest ih =>
    intro i q h
    cases i with
    | zero => rfl
    | succ k => exact ih k q (Nat.lt_of_succ_lt_succ h)

theorem getD_set_ne : ∀ (l : List Player) (i k : Nat) (q : Player), k ≠ i →
    (l.set i q).getD k dummyPlayer = l.getD k dummyPlayer := by
  intro l
  induction l with
  | nil => intros; rfl
  | cons a rest ih =>
    intro i k q hk
    cases i with
    | zero =>
      cases k with
      | zero => exact absurd rfl hk
      | succ k' => rfl
    | succ i' =>
      cases k with
      | zero => rfl
      | succ k' => exact ih i' k' q (fun hh => hk (by rw [hh]))

theorem getD_map_lt (f : Player → Player) : ∀ (l : List Player) (k : Nat), k < l.length →
    (l.map f).getD k dummyPlayer = f (l.getD k dummyPlayer) := by
  intro l
  induction l with
  | nil => intro k h; exact absurd h (by simp)
  | cons a rest ih =>
    intro k h
    cases k with
    | zero => rfl
    | succ k' => exact ih k' (Nat.lt_of_succ_lt_succ h)

theorem findIndex_lt (p : Player → Bool) : ∀ (l : List Player) (i : Nat),
    findIndex p l = some i → i < l.length := by
  intro l
  induction l with
  | nil => intro i h; exact absurd h (by simp [findIndex])
  | cons q rest ih =>
    intro i h
    by_cases hq : p q = true
    · simp only [findIndex, hq, if_true] at h
      cases h
      simp
    · simp only [findIndex, hq, Bool.false_eq_true, if_false] at h
      cases hrest : findIndex p rest with
      | none => rw [hrest] at h; exact absurd h (by simp)
      | some j =>
        rw [hrest] at h
        simp only [Option.map_some', Option.some.injEq] at h
        subst h
        exact Nat.succ_lt_succ (ih j hrest)

theorem findIndex_getD (p : Player → Bool) : ∀ (l : List Player) (i : Nat),
    findIndex p l = some i → p (l.getD i dummyPlayer) = true := by
  intro l
  induction l with
  | nil => intro i h; exact absurd h (by simp [findIndex])
  | cons q rest ih =>
    intro i h
    by_cases hq : p q = true
    · simp only [findIndex, hq, if_true] at h
      cases h
      exact hq
    · simp only [findIndex, hq, Bool.false_eq_true, if_false] at h
      cases hrest : findIndex p rest with
      | none => rw [hrest] at h; exact absurd h (by simp)
      | some j =>
        rw [hrest] at h
        simp only [Option.map_some', Option.some.injEq] at h
        subst h
        exact ih j hrest

theorem findIndex_getD_lt (p : Player → Bool) : ∀ (l : List Player) (i : Nat),
    findIndex p l = some i → ∀ k, k < i → p (l.getD k dummyPlayer) = false := by
  intro l
  induction l with
  | nil => intro i h; exact absurd h (by simp [findIndex])
  | cons q rest ih =>
    intro i h k hk
    by_cases hq : p q = true
    · simp only [findIndex, hq, if_true] at h
      cases h
      exact absurd hk (by simp)
    · simp only [findIndex, hq, Bool.false_eq_true, if_false] at h
      cases hrest : findIndex p rest with
      | none => rw [hrest] at h; exact absurd h (by simp)
      | some j =>
        rw [hrest] at h
        simp only [Option.map_some', Option.some.injEq] at h
        subst h
        cases k with
        | zero => exact Bool.not_eq_true _ ▸ eq_false_of_ne_true hq
        | succ k' => exact ih j hrest k' (Nat.lt_of_succ_lt_succ hk)

theorem findIndex_eq_some_of (p : Player → Bool) : ∀ (l : List Player) (j : Nat),
    j < l.length → p (l.getD j dummyPlayer) = true →
    (∀ k, k < j → p (l.getD k dummyPlayer) = false) → findIndex p l = some j := by
  intro l
  induction l with
  | nil => intro j h; exact absurd h (by simp)
  | cons q rest ih =>
    intro j hj hpj hk
    cases j with
    | zero =>
      have hq : p q = true := hpj
      simp only [findIndex, hq, if_true]
    | succ j' =>
      have hq : p q = false := hk 0 (Nat.succ_pos j')
      simp only [findIndex, hq, Bool.false_eq_true, if_false]
      rw [ih j' (Nat.lt_of_succ_lt_succ hj) hpj (fun k hlt => hk (k + 1) (Nat.succ_lt_succ hlt))]
      rfl

theorem findIndex_none_of (p : Player → Bool) : ∀ (l : List Player),
    (∀ q ∈ l, p q = false) → findIndex p l = none := by
  intro l
  induction l with
  | nil => intro _; rfl
  | cons q rest ih =>
    intro h
    have hq : p q = false := h q (List.mem_cons_self q rest)
    simp only [findIndex, hq, Bool.false_eq_true, if_false]
    rw [ih (fun x hx => h x (List.mem_cons_of_mem q hx))]
    rfl

theorem find?_eq_of_findIndex (p : Player → Bool) : ∀ (l : List Player) (i : Nat),
    findIndex p l = some i → l.find? p = some (l.getD i dummyPlayer) := by
  intro l
  induction l with
  | nil => intro i h; exact absurd h (by simp [findIndex])
  | cons q rest ih =>
    intro i h
    by_cases hq : p q = true
    · simp only [findIndex, hq, if_true] at h
      cases h
      simp [List.find?, hq]
    · simp only [findIndex, hq, Bool.false_eq_true, if_false] at h
      cases hrest : findIndex p rest with
      | none => rw [hrest] at h; exact absurd h (by simp)
      | some j =>
        rw [hrest] at h
        simp only [Option.map_some', Option.some.injEq] at h
        subst h
        have hqf : p q = false := eq_false_of_ne_true hq
        simp only [List.find?, hqf]
        exact ih j hrest

theorem filter_headD_of_findIndex (p : Player → Bool) : ∀ (l : List Player) (i : Nat),
    findIndex p l = some i → (l.filter p).headD dummyPlayer = l.getD i dummyPlayer := by
  intro l
  induction l with
  | nil => intro i h; exact absurd h (by simp [findIndex])
  | cons q rest ih =>
    intro i h
    by_cases hq : p q = true
    · simp only [findIndex, hq, if_true] at h
      cases h
      simp [List.filter, hq]
    · simp only [findIndex, hq, Bool.false_eq_true, if_false] at h
      cases hrest : findIndex p rest with
      | none => rw [hrest] at h; exact absurd h (by simp)
      | some j =>
        rw [hrest] at h
        simp only [Option.map_some', Option.some.injEq] at h
        subst h
        have hqf : p q = false := eq_false_of_ne_true hq
        simp only [List.filter, hqf]
        exact ih j hrest

theorem updateFirst_eq_set (test : Player → Bool) (f : Player → Player) :
    ∀ (l : List Player) (j : Nat), j < l.length → test (l.getD j dummyPlayer) = true →
    (∀ k, k < j → test (l.getD k dummyPlayer) = false) →
    updateFirst l test f = l.set j (f (l.getD j dummyPlayer)) := by
  intro l
  induction l with
  | nil => intro j h; exact absurd h (by simp)
  | cons q rest ih =>
    intro j hj htj hk
    cases j with
    | zero =>
      have hq : test q = true := htj
      simp only [updateFirst, hq, if_true]
      rfl
    | succ j' =>
      have hq : test q = false := hk 0 (Nat.succ_pos j')
      simp only [updateFirst, hq, Bool.false_eq_true, if_false]
      rw [ih j' (Nat.lt_of_succ_lt_succ hj) htj (fun k hlt => hk (k + 1) (Nat.succ_lt_succ hlt))]
      rfl

theorem map_id_set_of_id_eq : ∀ (l : List Player) (i : Nat) (q : Player),
    q.id = (l.getD i dummyPlayer).id →
    (l.set i q).map Player.id = l.map Player.id := by
  intro l
  induction l with
  | nil => intros; rfl
  | cons a rest ih =>
    intro i q hq
    cases i with
    | zero => simp only [List.set, List.map_cons, hq]; rfl
    | succ i' =>
      simp only [List.set, List.map_cons]
      rw [ih i' q hq]

theorem nodup_ids_ne : ∀ (l : List Player), (l.map Player.id).Nodup →
    ∀ j k, j < l.length → k < l.length → j ≠ k →
    (l.getD j dummyPlayer).id ≠ (l.getD k dummyPlayer).id := by
  intro l
  induction l with
  | nil => intro _ j k hj; simp at hj
  | cons a rest ih =>
    intro hnd j k hj hk hjk
    simp only [List.map_cons, List.nodup_cons] at hnd
    obtain ⟨ha, hrest⟩ := hnd
    cases j with
    | zero =>
      cases k with
      | zero => exact absurd rfl hjk
      | succ k' =>
        intro he
        exact ha (he ▸ List.mem_map_of_mem Player.id (getD_mem rest k' (Nat.lt_of_succ_lt_succ hk)))
    | succ j' =>
      cases k with
      | zero =>
        intro he
        exact ha (he ▸ List.mem_map_of_mem Player.id (getD_mem rest j' (Nat.lt_of_succ_lt_succ hj)))
      | succ k' =>
        exact ih hrest j' k' (Nat.lt_of_succ_lt_succ hj) (Nat.lt_of_succ_lt_succ hk)
          (fun hh => hjk (by rw [hh]))

theorem all_unpacked_getD (l : List Player) (n : Nat)
    (h : ∀ p ∈ l, p.packed = false) : (l.getD n dummyPlayer).packed = false := by
  by_cases hn : n < l.length
  · exact h _ (getD_mem l n hn)
  · rw [getD_oob l n (Nat.le_of_not_lt hn)]
    rfl

/-! ## C1: the turn fix-up after removal -/

theorem addToGameLog_players (r : Room) (m : String) : (addToGameLog r m).players = r.players := rfl

theorem addToGameLog_currentTurn (r : Room) (m : String) :
    (addToGameLog r m).currentTurn = r.currentTurn := rfl

theorem addToGameLog_pool (r : Room) (m : String) : (addToGameLog r m).pool = r.pool := rfl

theorem addToGameLog_round (r : Room) (m : String) : (addToGameLog r m).round = r.round := rfl

theorem addToGameLog_totalBids (r : Room) (m : String) :
    (addToGameLog r m).totalBids = r.totalBids := rfl

/-- The successful `removePlayer` path, written out. -/
theorem removePlayer_success (room : Room) (pid tid : String) (host target : Player) (i : Nat)
    (hh : room.players.find? (fun p => p.id == pid) = some host)
    (hc : host.isCreator = true)
    (ht : room.players.find? (fun p => p.id == tid) = some target)
    (htc : target.isCreator = false)
    (hidx : findIndex (fun p => p.id == tid) room.players = some i) :
    removePlayer room pid tid =
      ⟨(if (room.players.eraseIdx i).length ≤ room.currentTurn then
          { addToGameLog { room with players := room.players.eraseIdx i }
              (target.name ++ " was removed by " ++ host.name) with currentTurn := 0 }
        else if i < room.currentTurn then
          { addToGameLog { room with players := room.players.eraseIdx i }
              (target.name ++ " was removed by " ++ host.name) with
            currentTurn := room.currentTurn - 1 }
        else
          addToGameLog { room with players := room.players.eraseIdx i }
            (target.name ++ " was removed by " ++ host.name)), none⟩ := by
  simp only [removePlayer, hh, hc, ht, htc, hidx, Bool.not_true, Bool.false_eq_true, if_false]
  rfl

/-- Claim C1, amended. --  For a `removePlayer` by the owner on a present non-owner
target at index `i`, with `currentTurnIndex` in range: if `currentTurnIndex`
was the **last** index, it is reset to `0` regardless of the target's position
(the out-of-range test precedes the decrement); otherwise a target index
`i < currentTurnIndex` decrements `currentTurnIndex` by exactly 1, and a target
index `i > currentTurnIndex` leaves it unchanged. -/
theorem c1_amended_remove_turn_rule (room : Room) (pid tid : String) (host target : Player)
    (i : Nat)
    (hh : room.players.find? (fun p => p.id == pid) = some host)
    (hc : host.isCreator = true)
    (ht : room.players.find? (fun p => p.id == tid) = some target)
    (htc : target.isCreator = false)
    (hidx : findIndex (fun p => p.id == tid) room.players = some i)
    (hwf : room.currentTurn < room.players.length)
    (hN : 2 ≤ room.players.length) :
    ((removePlayer room pid tid).room.players.length = room.players.length - 1) ∧
    (room.currentTurn = room.players.length - 1 →
      (removePlayer room pid tid).room.currentTurn = 0) ∧
    (room.currentTurn < room.players.length - 1 → i < room.currentTurn →
      (removePlayer room pid tid).room.currentTurn = room.currentTurn - 1) ∧
    (room.currentTurn < i →
      (removePlayer room pid tid).room.currentTurn = room.currentTurn) := by
  have hilt : i < room.players.length := findIndex_lt _ _ _ hidx
  have hlen1 : (room.players.eraseIdx i).length + 1 = room.players.length :=
    List.length_eraseIdx_add_one hilt
  rw [removePlayer_success room pid tid host target i hh hc ht htc hidx]
  dsimp only
  refine ⟨?_, ?_, ?_, ?_⟩
  · split
    · show (room.players.eraseIdx i).length = room.players.length - 1
      omega
    · split
      · show (room.players.eraseIdx i).length = room.players.length - 1
        omega
      · show (room.players.eraseIdx i).length = room.players.length - 1
        omega
  · intro hcur
    rw [if_pos (by omega : (room.players.eraseIdx i).length ≤ room.currentTurn)]
  · intro h1 h2
    rw [if_neg (by omega : ¬ (room.players.eraseIdx i).length ≤ room.currentTurn),
      if_pos h2]
  · intro h4
    rw [if_neg (by omega : ¬ (room.players.eraseIdx i).length ≤ room.currentTurn),
      if_neg (by omega : ¬ i < room.currentTurn)]
    rfl

/-- Claim C1 (amended), witness. --  On `c1Room` (owner `"a"` at index 1, turn on the
last index 2): removing `"b"` (index 0) resets the turn to 0; and on the same
room with the turn moved to index 1, removing `"c"` (index 2 > 1) leaves the
turn unchanged. -/
theorem c1_amended_remove_turn_rule_witness :
    (removePlayer c1Room "a" "b").room.currentTurn = 0 ∧
    (removePlayer { c1Room with currentTurn := 1 } "a" "c").room.currentTurn = 1 :=
  ⟨(c1_amended_remove_turn_rule c1Room "a" "b"
      (c1Room.players.getD 1 dummyPlayer) (c1Room.players.getD 0 dummyPlayer) 0
      (by decide) (by decide) (by decide) (by decide) (by decide) (by decide)
      (by decide)).2.1 (by decide),
   (c1_amended_remove_turn_rule { c1Room with currentTurn := 1 } "a" "c"
      (c1Room.players.getD 1 dummyPlayer) (c1Room.players.getD 2 dummyPlayer) 2
      (by decide) (by decide) (by decide) (by decide) (by decide) (by decide)
      (by decide)).2.2.2 (by decide)⟩

/-! ## C2: the Turn Advance scan -/

/-- Specification of the claim's scan: the first index with `inactive == false`,
scanning circularly from `start` for at most `k` steps (`k = N` visits every
index). -/
def firstActiveFrom (players : List Player) : Nat → Nat → Option Nat
  | _, 0 => none
  | start, k + 1 =>
    if (players.getD start dummyPlayer).packed = false then some start
    else firstActiveFrom players ((start + 1) % players.length) k

theorem firstActiveFrom_some_spec (players : List Player) :
    ∀ (k start j : Nat), start < players.length →
    firstActiveFrom players start k = some j →
    j < players.length ∧ (players.getD j dummyPlayer).packed = false := by
  intro k
  induction k with
  | zero => intro start j _ h; exact absurd h (by simp [firstActiveFrom])
  | succ k ih =>
    intro start j hs h
    simp only [firstActiveFrom] at h
    by_cases hp : (players.getD start dummyPlayer).packed = false
    · rw [if_pos hp] at h
      cases h
      exact ⟨hs, hp⟩
    · rw [if_neg hp] at h
      exact ih ((start + 1) % players.length) j (Nat.mod_lt _ (by omega)) h

theorem firstActiveFrom_none_packed (players : List Player) :
    ∀ (k start : Nat), start < players.length →
    firstActiveFrom players start k = none →
    ∀ t, t < k → (players.getD ((start + t) % players.length) dummyPlayer).packed = true := by
  intro k
  induction k with
  | zero => intro start _ _ t ht; exact absurd ht (by omega)
  | succ k ih =>
    intro start hs h t ht
    simp only [firstActiveFrom] at h
    by_cases hp : (players.getD start dummyPlayer).packed = false
    · rw [if_pos hp] at h
      exact absurd h (by simp)
    · rw [if_neg hp] at h
      have hps : (players.getD start dummyPlayer).packed = true := by
        cases hb : (players.getD start dummyPlayer).packed
        · exact absurd hb hp
        · rfl
      cases t with
      | zero =>
        rw [Nat.add_zero, Nat.mod_eq_of_lt hs]
        exact hps
      | succ t' =>
        have hrec := ih ((start + 1) % players.length) (Nat.mod_lt _ (by omega)) h t' (by omega)
        rw [Nat.mod_add_mod] at hrec
        have harith : start + 1 + t' = start + (t' + 1) := by omega
        rw [harith] at hrec
        exact hrec

theorem getD_eq_get : ∀ (l : List Player) (i : Nat) (h : i < l.length),
    l.getD i dummyPlayer = l.get ⟨i, h⟩ := by
  intro l
  induction l with
  | nil => intro i h; exact absurd h (by simp)
  | cons a rest ih =>
    intro i h
    cases i with
    | zero => rfl
    | succ k => exact ih k (Nat.lt_of_succ_lt_succ h)

/-- A failed full-length circular scan means every participant is packed. -/
theorem all_packed_of_scan_none (players : List Player) (start : Nat)
    (hs : start < players.length)
    (h : firstActiveFrom players start players.length = none) :
    ∀ q ∈ players, q.packed = true := by
  intro q hq
  obtain ⟨⟨i, hi⟩, rfl⟩ := List.mem_iff_get.mp hq
  rw [← getD_eq_get players i hi]
  have hpk := firstActiveFrom_none_packed players players.length start hs h
  have ht : (players.length + i - start) % players.length < players.length :=
    Nat.mod_lt _ (by omega)
  have heq : (start + (players.length + i - start) % players.length) % players.length = i := by
    rw [Nat.add_mod_mod]
    rw [Nat.add_sub_cancel' (by omega : start ≤ players.length + i)]
    rw [Nat.add_mod_left, Nat.mod_eq_of_lt hi]
  have := hpk ((players.length + i - start) % players.length) ht
  rw [heq] at this
  exact this

/-- The loop agrees with the scan specification: started with `attempts + fuel
= N` at an in-range index, it stops at the first active index when the scan
finds one (with `attempts < N`), and otherwise wraps to `((cur + fuel) % N, N)`. -/
theorem moveLoopF_spec (players : List Player) :
    ∀ (f cur attempts : Nat), attempts + f = players.length → cur < players.length →
    (match firstActiveFrom players cur f with
     | some j =>
       (moveLoopF players players.length f cur attempts).1 = j ∧
       (moveLoopF players players.length f cur attempts).2 < players.length
     | none =>
       moveLoopF players players.length f cur attempts
         = ((cur + f) % players.length, players.length)) := by
  intro f
  induction f with
  | zero =>
    intro cur attempts h hcur
    simp only [firstActiveFrom, moveLoopF]
    rw [Nat.add_zero, Nat.mod_eq_of_lt hcur]
    have : attempts = players.length := by omega
    rw [this]
  | succ f ih =>
    intro cur attempts h hcur
    have hlt : attempts < players.length := by omega
    by_cases hp : (players.getD cur dummyPlayer).packed = true
    · have hpf : ¬ ((players.getD cur dummyPlayer).packed = false) := by
        rw [hp]; exact fun hh => Bool.noConfusion hh
      simp only [moveLoopF, if_pos (And.intro hp hlt), firstActiveFrom, if_neg hpf]
      have hcur' : (cur + 1) % players.length < players.length := Nat.mod_lt _ (by omega)
      have hrec := ih ((cur + 1) % players.length) (attempts + 1) (by omega) hcur'
      cases hfa : firstActiveFrom players ((cur + 1) % players.length) f with
      | some j =>
        rw [hfa] at hrec
        exact hrec
      | none =>
        rw [hfa] at hrec
        rw [hrec]
        have : ((cur + 1) % players.length + f) % players.length
            = (cur + (f + 1)) % players.length := by
          rw [Nat.mod_add_mod]
          have harith : cur + 1 + f = cur + (f + 1) := by omega
          rw [harith]
        rw [this]
    · have hp' : (players.getD cur dummyPlayer).packed = false := by
        cases hb : (players.getD cur dummyPlayer).packed
        · rfl
        · exact absurd hb hp
      simp only [moveLoopF, firstActiveFrom, if_pos hp']
      rw [if_neg (fun hcon => hp hcon.1)]
      exact ⟨rfl, hlt⟩

/-- Claim C2, amended. --  For a room with `N ≥ 1` participants and an in-range
`currentTurnIndex`, `moveToNextActivePlayer` leaves `participants` unchanged and
sets `currentTurnIndex` to the first index, scanning circularly from
`(currentTurnIndex + 1) mod N`, whose participant has `inactive == false`; it
never selects an inactive participant while at least one active participant
exists; but if **every** participant is inactive it sets `currentTurnIndex` to
`(currentTurnIndex + 1) mod N` (the start of the failed scan), not to its old
value. -/
theorem c2_amended_turn_advance (room : Room) (h0 : 0 < room.players.length)
    (hwf : room.currentTurn < room.players.length) :
    ((moveToNextActivePlayer room).players = room.players) ∧
    (match firstActiveFrom room.players ((room.currentTurn + 1) % room.players.length)
        room.players.length with
     | some j => (moveToNextActivePlayer room).currentTurn = j ∧
         (room.players.getD j dummyPlayer).packed = false
     | none => (moveToNextActivePlayer room).currentTurn
         = (room.currentTurn + 1) % room.players.length) ∧
    ((∃ p ∈ room.players, p.packed = false) →
      (playerAt (moveToNextActivePlayer room) (moveToNextActivePlayer room).currentTurn).packed
        = false) := by
  have hnz : ¬ (room.players.length = 0) := by omega
  have hs : (room.currentTurn + 1) % room.players.length < room.players.length :=
    Nat.mod_lt _ h0
  have hml : moveLoop room.players room.players.length
      ((room.currentTurn + 1) % room.players.length) 0
      = moveLoopF room.players room.players.length room.players.length
        ((room.currentTurn + 1) % room.players.length) 0 := by
    rw [moveLoop, Nat.sub_zero]
  have hspec := moveLoopF_spec room.players room.players.length
    ((room.currentTurn + 1) % room.players.length) 0 (by omega) hs
  have hcore : match firstActiveFrom room.players
      ((room.currentTurn + 1) % room.players.length) room.players.length with
    | some j => nextTurnIndex room = j ∧ (room.players.getD j dummyPlayer).packed = false
    | none => nextTurnIndex room = (room.currentTurn + 1) % room.players.length := by
    cases hfa : firstActiveFrom room.players
        ((room.currentTurn + 1) % room.players.length) room.players.length with
    | some j =>
      rw [hfa] at hspec
      have hjspec := firstActiveFrom_some_spec room.players room.players.length
        ((room.currentTurn + 1) % room.players.length) j hs hfa
      refine ⟨?_, hjspec.2⟩
      simp only [nextTurnIndex, hnz, if_false, hml]
      rw [if_neg (by omega : ¬ room.players.length
        ≤ (moveLoopF room.players room.players.length room.players.length
          ((room.currentTurn + 1) % room.players.length) 0).2)]
      exact hspec.1
    | none =>
      rw [hfa] at hspec
      have hallp : ∀ q ∈ room.players, q.packed = true :=
        all_packed_of_scan_none room.players _ hs hfa
      have hfind : findIndex (fun p => !p.packed) room.players = none := by
        refine findIndex_none_of _ room.players (fun q hq => ?_)
        rw [hallp q hq]
        rfl
      simp only [nextTurnIndex, hnz, if_false, hml, hspec, hfind]
      rw [if_pos (le_refl room.players.length)]
      rw [Nat.add_mod_right, Nat.mod_eq_of_lt hs]
  refine ⟨rfl, ?_, ?_⟩
  · cases hfa : firstActiveFrom room.players
        ((room.currentTurn + 1) % room.players.length) room.players.length with
    | some j =>
      rw [hfa] at hcore
      exact hcore
    | none =>
      rw [hfa] at hcore
      exact hcore
  · intro hex
    cases hfa : firstActiveFrom room.players
        ((room.currentTurn + 1) % room.players.length) room.players.length with
    | some j =>
      rw [hfa] at hcore
      show (room.players.getD (nextTurnIndex room) dummyPlayer).packed = false
      rw [hcore.1]
      exact hcore.2
    | none =>
      obtain ⟨p, hp, hpf⟩ := hex
      have := all_packed_of_scan_none room.players _ hs hfa p hp
      rw [hpf] at this
      exact Bool.noConfusion this

/-- Three-player room: turn on 0, player at index 1 packed, index 2 active. -/
def c2WRoom : Room :=
  { code := "2222", creator := "A", startingBalance := 1000,
    players :=
      [{ id := "a", socketId := some "sa", name := "A", balance := 1000,
         isCreator := true, packed := false },
       { id := "b", socketId := some "sb", name := "B", balance := 1000,
         isCreator := false, packed := true },
       { id := "c", socketId := some "sc", name := "C", balance := 1000,
         isCreator := false, packed := false }],
    pool := 0, currentTurn := 0, round := 1, gameLog := [], totalBids := 0 }

/-- Claim C2 (amended), witness. --  On `c2WRoom` (turn 0, index 1 packed), the scan
from index 1 skips the packed player and the advance lands on index 2, an
active participant; and on the all-packed `c2Room` the advance lands on
`(0 + 1) mod 2 = 1`. -/
theorem c2_amended_turn_advance_witness :
    (moveToNextActivePlayer c2WRoom).players = c2WRoom.players ∧
    (moveToNextActivePlayer c2WRoom).currentTurn = 2 ∧
    (playerAt (moveToNextActivePlayer c2WRoom)
      (moveToNextActivePlayer c2WRoom).currentTurn).packed = false ∧
    (moveToNextActivePlayer c2Room).currentTurn = (c2Room.currentTurn + 1) % 2 := by
  have h1 := c2_amended_turn_advance c2WRoom (by decide) (by decide)
  have h2 := c2_amended_turn_advance c2Room (by decide) (by decide)
  have hfa1 : firstActiveFrom c2WRoom.players ((c2WRoom.currentTurn + 1) % c2WRoom.players.length)
      c2WRoom.players.length = some 2 := by decide
  have hfa2 : firstActiveFrom c2Room.players ((c2Room.currentTurn + 1) % c2Room.players.length)
      c2Room.players.length = none := by decide
  rw [hfa1] at h1
  rw [hfa2] at h2
  exact ⟨h1.1, h1.2.1.1, h1.2.2 ⟨c2WRoom.players.getD 0 dummyPlayer, by decide, by decide⟩,
    h2.2.1⟩

/-! ## C6: pool accounting -/

/-- A `packCards` call that triggers the last-man-standing settlement: the
guards pass and, after marking the packer, exactly one active player remains. -/
def packSettles (room : Room) (pid : String) : Bool :=
  match findIndex (fun p => p.id == pid) room.players with
  | none => false
  | some i =>
    !(playerAt room i).packed && (room.currentTurn == i) &&
      (((room.players.set i { playerAt room i with packed := true }).filter
        (fun p => !p.packed)).length == 1)

/-- The amount a step adds to the pool: the bid amount of a successful
`placeBid`, `0` for everything else. -/
def bidAmountOf (room : Room) (op : GameOp) : Int :=
  match op with
  | .bid pid amount => if (placeBid room pid amount).err = none then amount else 0
  | _ => 0

/-- A step that zeroes the pool: a settling pack, a successful reset, or a
successful declare-winner. -/
def isBoundary (room : Room) (op : GameOp) : Bool :=
  match op with
  | .pack pid => packSettles room pid
  | .reset pid => (resetPool room pid).err.isNone
  | .declare pid wid => (declareWinner room pid wid).err.isNone
  | _ => false

/-- The sum of the amounts of successful `PlaceBid` calls since the most recent
settlement or `ResetPool` (or the starting accumulator when none occurred),
tracked along the trace. -/
def segSum : Int → Room → List GameOp → Option Int
  | acc, _, [] => some acc
  | acc, room, op :: rest =>
    match stepOp room op with
    | none => none
    | some room' =>
      segSum (if isBoundary room op then 0 else acc + bidAmountOf room op) room' rest

theorem pool_joinRoom (room : Room) (pid sid name : String) :
    (joinRoom room pid sid name).room.pool = room.pool := by
  unfold joinRoom
  dsimp only
  split
  · rfl
  · rfl

theorem pool_rejoinPlayer (room : Room) (pid sid name : String) :
    (rejoinPlayer room pid sid name).pool = room.pool := by
  unfold rejoinPlayer
  dsimp only
  split
  · rfl
  · rfl

theorem pool_placeBid (room : Room) (pid : String) (amount : Int) :
    (placeBid room pid amount).room.pool
      = if (placeBid room pid amount).err = none then room.pool + amount else room.pool := by
  unfold placeBid
  dsimp only
  repeat' split
  all_goals simp_all [moveToNextActivePlayer, addToGameLog]

theorem placeBid_pos (room : Room) (pid : String) (amount : Int) :
    (placeBid room pid amount).err = none → 0 < amount := by
  unfold placeBid
  dsimp only
  repeat' split
  all_goals intro h
  all_goals first | exact Option.noConfusion h | omega

theorem pool_packCards (room : Room) (pid : String) :
    (packCards room pid).room.pool = if packSettles room pid = true then 0 else room.pool := by
  cases hidx : findIndex (fun p => p.id == pid) room.players with
  | none => simp [packCards, packSettles, hidx]
  | some i =>
    by_cases hp : (playerAt room i).packed = true
    · simp [packCards, packSettles, hidx, hp]
    · have hp' : (playerAt room i).packed = false := by
        cases hb : (playerAt room i).packed
        · rfl
        · exact absurd hb hp
      by_cases ht : room.currentTurn = i
      · by_cases hone : ((room.players.set i { playerAt room i with packed := true }).filter
            (fun p => !p.packed)).length = 1
        · simp [packCards, packSettles, hidx, hp', ht, hone, ensureActiveTurn,
            moveToNextActivePlayer, addToGameLog]
        · simp [packCards, packSettles, hidx, hp', ht, hone, ensureActiveTurn,
            moveToNextActivePlayer, addToGameLog]
      · simp [packCards, packSettles, hidx, hp', ht]

theorem pool_resetPool (room : Room) (pid : String) :
    (resetPool room pid).room.pool
      = if (resetPool room pid).err = none then 0 else room.pool := by
  unfold resetPool
  dsimp only
  repeat' split
  all_goals simp_all [addToGameLog]

theorem pool_declareWinner (room : Room) (pid wid : String) :
    (declareWinner room pid wid).room.pool
      = if (declareWinner room pid wid).err = none then 0 else room.pool := by
  unfold declareWinner
  dsimp only
  repeat' split
  all_goals simp_all [addToGameLog]

theorem pool_removePlayer (room : Room) (pid tid : String) :
    (removePlayer room pid tid).room.pool = room.pool := by
  unfold removePlayer
  dsimp only
  repeat' split
  all_goals rfl

theorem pool_changeTurn (room : Room) (pid tid : String) :
    (changeTurn room pid tid).room.pool = room.pool := by
  unfold changeTurn
  dsimp only
  repeat' split
  all_goals rfl

theorem pool_leaveRoom (room : Room) (pid : String) :
    ∀ r', leaveRoom room pid = some r' → r'.pool = room.pool := by
  unfold leaveRoom
  dsimp only
  repeat' split
  all_goals intro r' h
  all_goals first | (cases h; rfl) | exact Option.noConfusion h

theorem pool_disconnectTimeout (room : Room) (pid sid : String) :
    ∀ r', disconnectTimeout room pid sid = some r' → r'.pool = room.pool := by
  unfold disconnectTimeout
  dsimp only
  repeat' split
  all_goals intro r' h
  all_goals first | (cases h; rfl) | exact Option.noConfusion h

/-- Per-step pool characterization: a step either zeroes the pool (settlement /
reset boundary) or adds exactly its successful-bid amount (zero for non-bids). -/
theorem stepOp_pool (room : Room) (op : GameOp) (room' : Room)
    (h : stepOp room op = some room') :
    room'.pool = if isBoundary room op then 0 else room.pool + bidAmountOf room op := by
  cases op with
  | join pid sid name =>
    simp only [stepOp] at h
    cases h
    simp [isBoundary, bidAmountOf, pool_joinRoom]
  | rejoin pid sid name =>
    simp only [stepOp] at h
    cases h
    simp [isBoundary, bidAmountOf, pool_rejoinPlayer]
  | bid pid amount =>
    simp only [stepOp] at h
    cases h
    rw [pool_placeBid]
    by_cases herr : (placeBid room pid amount).err = none
    · simp [herr, isBoundary, bidAmountOf]
    · simp [herr, isBoundary, bidAmountOf]
  | pack pid =>
    simp only [stepOp] at h
    cases h
    rw [pool_packCards]
    by_cases hs : packSettles room pid = true
    · simp [hs, isBoundary]
    · simp [hs, isBoundary, bidAmountOf]
  | reset pid =>
    simp only [stepOp] at h
    cases h
    rw [pool_resetPool]
    by_cases herr : (resetPool room pid).err = none
    · simp [herr, isBoundary, bidAmountOf, Option.isNone_iff_eq_none]
    · simp [herr, isBoundary, bidAmountOf, Option.isNone_iff_eq_none]
  | declare pid wid =>
    simp only [stepOp] at h
    cases h
    rw [pool_declareWinner]
    by_cases herr : (declareWinner room pid wid).err = none
    · simp [herr, isBoundary, bidAmountOf, Option.isNone_iff_eq_none]
    · simp [herr, isBoundary, bidAmountOf, Option.isNone_iff_eq_none]
  | remove pid tid =>
    simp only [stepOp] at h
    cases h
    simp [isBoundary, bidAmountOf, pool_removePlayer]
  | changeT pid tid =>
    simp only [stepOp] at h
    cases h
    simp [isBoundary, bidAmountOf, pool_changeTurn]
  | leave pid =>
    simp only [stepOp] at h
    simp [isBoundary, bidAmountOf, pool_leaveRoom room pid room' h]
  | disconnect pid sid =>
    simp only [stepOp] at h
    simp [isBoundary, bidAmountOf, pool_disconnectTimeout room pid sid room' h]

theorem bidAmountOf_nonneg (room : Room) (op : GameOp) : 0 ≤ bidAmountOf room op := by
  cases op with
  | bid pid amount =>
    by_cases herr : (placeBid room pid amount).err = none
    · simp only [bidAmountOf, herr, if_true]
      exact le_of_lt (placeBid_pos room pid amount herr)
    · simp [bidAmountOf, herr]
  | join pid sid name => simp [bidAmountOf]
  | rejoin pid sid name => simp [bidAmountOf]
  | pack pid => simp [bidAmountOf]
  | reset pid => simp [bidAmountOf]
  | declare pid wid => simp [bidAmountOf]
  | remove pid tid => simp [bidAmountOf]
  | changeT pid tid => simp [bidAmountOf]
  | leave pid => simp [bidAmountOf]
  | disconnect pid sid => simp [bidAmountOf]

theorem runOps_pool_trace : ∀ (ops : List GameOp) (room : Room),
    (runOps room ops).map Room.pool = segSum room.pool room ops := by
  intro ops
  induction ops with
  | nil => intro room; rfl
  | cons op rest ih =>
    intro room
    simp only [runOps, segSum]
    cases h : stepOp room op with
    | none => rfl
    | some room' =>
      rw [← stepOp_pool room op room' h]
      exact ih room'

theorem runOps_pool_nonneg : ∀ (ops : List GameOp) (room : Room), 0 ≤ room.pool →
    ∀ r', runOps room ops = some r' → 0 ≤ r'.pool := by
  intro ops
  induction ops with
  | nil =>
    intro room h r' hr
    cases hr
    exact h
  | cons op rest ih =>
    intro room h r' hr
    simp only [runOps] at hr
    cases hstep : stepOp room op with
    | none => rw [hstep] at hr; exact Option.noConfusion hr
    | some room' =>
      rw [hstep] at hr
      refine ih room' ?_ r' hr
      rw [stepOp_pool room op room' hstep]
      have hb := bidAmountOf_nonneg room op
      by_cases hbd : isBoundary room op = true
      · simp [hbd]
      · simp only [hbd, Bool.false_eq_true, if_false]
        omega

/-- Claim C6. --  Along every operation sequence, the pool equals the sum of the
amounts of the successful `PlaceBid` calls since the most recent settlement
(last-man-standing pack or declare-winner) or `ResetPool` — starting from the
room's initial pool, which is `0` at creation — and the pool never goes
negative. -/
theorem c6_pool_invariant (room : Room) (ops : List GameOp) :
    (runOps room ops).map Room.pool = segSum room.pool room ops ∧
    (0 ≤ room.pool → ∀ r', runOps room ops = some r' → 0 ≤ r'.pool) :=
  ⟨runOps_pool_trace ops room, runOps_pool_nonneg ops room⟩

/-- Two-player room for the C6 witness: owner `"a"` (turn 0), `"b"`. -/
def c6Room : Room :=
  { code := "6666", creator := "A", startingBalance := 1000,
    players :=
      [{ id := "a", socketId := some "sa", name := "A", balance := 1000,
         isCreator := true, packed := false },
       { id := "b", socketId := some "sb", name := "B", balance := 1000,
         isCreator := false, packed := false }],
    pool := 0, currentTurn := 0, round := 1, gameLog := [], totalBids := 0 }

/-- Source `a` bids 10, `b` bids 20. -/
def c6Ops : List GameOp := [GameOp.bid "a" 10, GameOp.bid "b" 20]

/-- Claim C6, witness. --  On the concrete two-bid trace the equality holds and the
final pool is non-negative. -/
theorem c6_pool_invariant_witness :
    (runOps c6Room c6Ops).map Room.pool = segSum c6Room.pool c6Room c6Ops ∧
    0 ≤ ((runOps c6Room c6Ops).getD dummyRoom).pool :=
  ⟨(c6_pool_invariant c6Room c6Ops).1,
   (c6_pool_invariant c6Room c6Ops).2 (by decide) ((runOps c6Room c6Ops).getD dummyRoom)
     (by decide)⟩

/-! ## C8: the settlement effect -/

/-- The settlement transformation asserted by the spec, relative to the
pre-settlement room: pool paid to the winner at `wIdx`, pool zeroed, round
incremented, bid counter cleared, everyone unpacked, turn on the winner. -/
def SettleOutcome (pre post : Room) (wIdx : Nat) : Prop :=
  post.pool = 0 ∧
  post.round = pre.round + 1 ∧
  post.totalBids = 0 ∧
  post.currentTurn = wIdx ∧
  post.players.length = pre.players.length ∧
  (∀ p ∈ post.players, p.packed = false) ∧
  (∀ k, k < pre.players.length →
    (post.players.getD k dummyPlayer).balance
      = (pre.players.getD k dummyPlayer).balance + (if k = wIdx then pre.pool else 0))

theorem ensureTurnIndex_of_unpacked (r : Room) (h : ∀ p ∈ r.players, p.packed = false) :
    ensureTurnIndex r = r.currentTurn := by
  unfold ensureTurnIndex
  by_cases h0 : r.players.length = 0
  · rw [if_pos h0]
  · rw [if_neg h0]
    have hcur : (playerAt r r.currentTurn).packed = false := all_unpacked_getD _ _ h
    rw [if_neg (by rw [hcur]; exact fun hh => Bool.noConfusion hh)]

theorem ensureActiveTurn_of_unpacked (r : Room) (h : ∀ p ∈ r.players, p.packed = false) :
    ensureActiveTurn r = r := by
  unfold ensureActiveTurn
  rw [ensureTurnIndex_of_unpacked r h]

/-- Source `declareWinner` under the success preconditions realizes `SettleOutcome`
at the winner's index. -/
theorem declareWinner_settles (room : Room) (pid wid : String) (host : Player) (wIdx : Nat)
    (hh : room.players.find? (fun p => p.id == pid) = some host)
    (hc : host.isCreator = true)
    (hwidx : findIndex (fun p => p.id == wid) room.players = some wIdx)
    (hpool : 0 < room.pool) :
    (declareWinner room pid wid).err = none ∧
    SettleOutcome room (declareWinner room pid wid).room wIdx := by
  have hwlt : wIdx < room.players.length := findIndex_lt _ _ _ hwidx
  have hw : room.players.find? (fun p => p.id == wid)
      = some (room.players.getD wIdx dummyPlayer) := find?_eq_of_findIndex _ _ _ hwidx
  have hself : ((room.players.getD wIdx dummyPlayer).id
      == (room.players.getD wIdx dummyPlayer).id) = true := by simp
  have hwid' : (room.players.getD wIdx dummyPlayer).id = wid := by
    have := findIndex_getD _ _ _ hwidx
    simpa using this
  have hklt : ∀ k, k < wIdx →
      ((room.players.getD k dummyPlayer).id == (room.players.getD wIdx dummyPlayer).id)
        = false := by
    intro k hk
    rw [hwid']
    exact findIndex_getD_lt _ _ _ hwidx k hk
  have hupd : updateFirst room.players
      (fun p => p.id == (room.players.getD wIdx dummyPlayer).id)
      (fun p => { p with balance := p.balance + room.pool })
      = room.players.set wIdx { room.players.getD wIdx dummyPlayer with
          balance := (room.players.getD wIdx dummyPlayer).balance + room.pool } :=
    updateFirst_eq_set _ _ room.players wIdx hwlt hself hklt
  have hfi : findIndex (fun p => p.id == (room.players.getD wIdx dummyPlayer).id)
      (room.players.set wIdx { room.players.getD wIdx dummyPlayer with
        balance := (room.players.getD wIdx dummyPlayer).balance + room.pool })
      = some wIdx := by
    apply findIndex_eq_some_of
    · rw [List.length_set]
      exact hwlt
    · rw [getD_set_self _ _ _ hwlt]
      simp
    · intro k hk
      rw [getD_set_ne _ _ _ _ (Nat.ne_of_lt hk)]
      exact hklt k hk
  simp only [declareWinner, hh, hc, Bool.not_true, Bool.false_eq_true, if_false, hw]
  rw [if_neg (by omega : ¬ room.pool ≤ 0)]
  refine ⟨rfl, ?_⟩
  simp only [addToGameLog, hupd, hfi]
  refine ⟨rfl, rfl, rfl, rfl, by simp, ?_, ?_⟩
  · intro p hp
    rcases List.mem_map.mp hp with ⟨q, _, rfl⟩
    rfl
  · intro k hk
    rw [getD_map_lt _ _ k (by rw [List.length_set]; exact hk)]
    by_cases hkw : k = wIdx
    · subst hkw
      rw [getD_set_self _ _ _ hwlt]
      simp
    · rw [getD_set_ne _ _ _ _ hkw]
      simp [hkw]

/-- A `packCards` that leaves exactly one active participant (at index `j` of
the post-pack list) realizes `SettleOutcome` at that participant's index. -/
theorem packCards_settles (room : Room) (pid : String) (i j : Nat)
    (hnodup : (room.players.map Player.id).Nodup)
    (hidx : findIndex (fun p => p.id == pid) room.players = some i)
    (hnp : (playerAt room i).packed = false)
    (hturn : room.currentTurn = i)
    (hone : ((room.players.set i { playerAt room i with packed := true }).filter
      (fun p => !p.packed)).length = 1)
    (hj : findIndex (fun p => !p.packed)
      (room.players.set i { playerAt room i with packed := true }) = some j) :
    (packCards room pid).err = none ∧
    SettleOutcome room (packCards room pid).room j := by
  have hilt : i < room.players.length := findIndex_lt _ _ _ hidx
  have hP1len : (room.players.set i { playerAt room i with packed := true }).length
      = room.players.length := List.length_set room.players i _
  have hjlt : j < room.players.length := by
    have := findIndex_lt _ _ _ hj
    rwa [hP1len] at this
  have hwpacked : ((room.players.set i { playerAt room i with packed := true }).getD j
      dummyPlayer).packed = false := by
    have := findIndex_getD _ _ _ hj
    simpa using this
  have hji : j ≠ i := by
    intro he
    rw [he, getD_set_self _ _ _ hilt] at hwpacked
    simp at hwpacked
  have hids : (room.players.set i { playerAt room i with packed := true }).map Player.id
      = room.players.map Player.id := map_id_set_of_id_eq room.players i _ rfl
  have hnodup1 : ((room.players.set i { playerAt room i with packed := true }).map
      Player.id).Nodup := by rw [hids]; exact hnodup
  have hbalP1 : ∀ k, ((room.players.set i { playerAt room i with packed := true }).getD k
      dummyPlayer).balance = (room.players.getD k dummyPlayer).balance := by
    intro k
    by_cases hki : k = i
    · rw [hki, getD_set_self _ _ _ hilt]
      simp [playerAt]
    · rw [getD_set_ne _ _ _ _ hki]
  have hself : (((room.players.set i { playerAt room i with packed := true }).getD j
        dummyPlayer).id
      == ((room.players.set i { playerAt room i with packed := true }).getD j
        dummyPlayer).id) = true := by simp
  have hklt : ∀ k, k < j →
      (((room.players.set i { playerAt room i with packed := true }).getD k dummyPlayer).id
        == ((room.players.set i { playerAt room i with packed := true }).getD j
          dummyPlayer).id) = false := by
    intro k hk
    refine beq_eq_false_iff_ne.mpr ?_
    exact nodup_ids_ne _ hnodup1 k j (by rw [hP1len]; omega) (by rw [hP1len]; exact hjlt)
      (Nat.ne_of_lt hk)
  have hupd : updateFirst (room.players.set i { playerAt room i with packed := true })
      (fun p => p.id == ((room.players.set i { playerAt room i with packed := true }).getD j
        dummyPlayer).id)
      (fun p => { p with balance := p.balance + room.pool })
      = (room.players.set i { playerAt room i with packed := true }).set j
        { (room.players.set i { playerAt room i with packed := true }).getD j dummyPlayer with
          balance := ((room.players.set i { playerAt room i with packed := true }).getD j
            dummyPlayer).balance + room.pool } :=
    updateFirst_eq_set _ _ _ j (by rw [hP1len]; exact hjlt) hself hklt
  have hheadD : ((room.players.set i { playerAt room i with packed := true }).filter
      (fun p => !p.packed)).headD dummyPlayer
      = (room.players.set i { playerAt room i with packed := true }).getD j dummyPlayer :=
    filter_headD_of_findIndex _ _ _ hj
  have hfi : findIndex (fun p => p.id
      == ((room.players.set i { playerAt room i with packed := true }).getD j dummyPlayer).id)
      ((room.players.set i { playerAt room i with packed := true }).set j
        { (room.players.set i { playerAt room i with packed := true }).getD j dummyPlayer with
          balance := ((room.players.set i { playerAt room i with packed := true }).getD j
            dummyPlayer).balance + room.pool })
      = some j := by
    apply findIndex_eq_some_of
    · rw [List.length_set, hP1len]
      exact hjlt
    · rw [getD_set_self _ _ _ (by rw [hP1len]; exact hjlt)]
      simp
    · intro k hk
      rw [getD_set_ne _ _ _ _ (Nat.ne_of_lt hk)]
      exact hklt k hk
  simp only [packCards, hidx, hnp, hturn, Bool.false_eq_true, if_false, ne_eq,
    not_true_eq_false, moveToNextActivePlayer, addToGameLog]
  rw [if_pos hone]
  simp only [hheadD, hupd, hfi, Option.getD_some]
  refine ⟨by trivial, ?_⟩
  rw [ensureActiveTurn_of_unpacked]
  · refine ⟨rfl, rfl, rfl, rfl, by simp [hP1len], ?_, ?_⟩
    · intro p hp
      rcases List.mem_map.mp hp with ⟨q, _, rfl⟩
      rfl
    · intro k hk
      rw [getD_map_lt _ _ k (by rw [List.length_set, hP1len]; exact hk)]
      by_cases hkj : k = j
      · rw [hkj, getD_set_self _ _ _ (by rw [hP1len]; exact hjlt)]
        have hb := hbalP1 j
        simp at hb ⊢
        simp [hb]
      · rw [getD_set_ne _ _ _ _ hkj]
        have hb := hbalP1 k
        simp at hb ⊢
        simp [hb, hkj]
  · intro p hp
    rcases List.mem_map.mp hp with ⟨q, _, rfl⟩
    rfl

/-- Claim C8. --  The settlement reached through a successful `DeclareWinner` and
the settlement reached through a `Pack` that leaves exactly one active
participant realize the same state transformation `SettleOutcome`: the winner's
balance is credited with the pre-settlement pool, the pool becomes 0, the round
increases by exactly 1, `totalBids` becomes 0, every participant is unpacked,
and `currentTurnIndex` becomes the winner's index. -/
theorem c8_settlement_refinement :
    (∀ (room : Room) (pid wid : String) (host : Player) (wIdx : Nat),
      room.players.find? (fun p => p.id == pid) = some host →
      host.isCreator = true →
      findIndex (fun p => p.id == wid) room.players = some wIdx →
      0 < room.pool →
      (declareWinner room pid wid).err = none ∧
      SettleOutcome room (declareWinner room pid wid).room wIdx) ∧
    (∀ (room : Room) (pid : String) (i j : Nat),
      (room.players.map Player.id).Nodup →
      findIndex (fun p => p.id == pid) room.players = some i →
      (playerAt room i).packed = false →
      room.currentTurn = i →
      ((room.players.set i { playerAt room i with packed := true }).filter
        (fun p => !p.packed)).length = 1 →
      findIndex (fun p => !p.packed)
        (room.players.set i { playerAt room i with packed := true }) = some j →
      (packCards room pid).err = none ∧
      SettleOutcome room (packCards room pid).room j) :=
  ⟨fun room pid wid host wIdx hh hc hwidx hpool =>
    declareWinner_settles room pid wid host wIdx hh hc hwidx hpool,
   fun room pid i j hn hidx hnp ht hone hj =>
    packCards_settles room pid i j hn hidx hnp ht hone hj⟩

/-- Two-player room with a non-empty pool for the declare side of C8. -/
def c8DeclRoom : Room :=
  { code := "8800", creator := "A", startingBalance := 1000,
    players :=
      [{ id := "a", socketId := some "sa", name := "A", balance := 970,
         isCreator := true, packed := false },
       { id := "b", socketId := some "sb", name := "B", balance := 980,
         isCreator := false, packed := false }],
    pool := 50, currentTurn := 0, round := 1, gameLog := [], totalBids := 2 }

/-- Two-player room in which `"a"` packing leaves `"b"` as last active. -/
def c8PackRoom : Room :=
  { code := "8801", creator := "A", startingBalance := 1000,
    players :=
      [{ id := "a", socketId := some "sa", name := "A", balance := 960,
         isCreator := true, packed := false },
       { id := "b", socketId := some "sb", name := "B", balance := 1000,
         isCreator := false, packed := false }],
    pool := 40, currentTurn := 0, round := 1, gameLog := [], totalBids := 1 }

/-- Claim C8, witness. --  The owner declares `"b"` the winner of `c8DeclRoom`, and
`"a"` packs in `c8PackRoom` leaving `"b"` last active: both calls succeed and
both results satisfy `SettleOutcome` at the winner's index 1. -/
theorem c8_settlement_refinement_witness :
    ((declareWinner c8DeclRoom "a" "b").err = none ∧
      SettleOutcome c8DeclRoom (declareWinner c8DeclRoom "a" "b").room 1) ∧
    ((packCards c8PackRoom "a").err = none ∧
      SettleOutcome c8PackRoom (packCards c8PackRoom "a").room 1) :=
  ⟨c8_settlement_refinement.1 c8DeclRoom "a" "b" (c8DeclRoom.players.getD 0 dummyPlayer) 1
    (by decide) (by decide) (by decide) (by decide),
   c8_settlement_refinement.2 c8PackRoom "a" 0 1 (by decide) (by decide) (by decide)
    (by decide) (by decide) (by decide)⟩
